import Mathlib

/-!
Shallow embedding of the user-settings GraphQL service
(src/nodeJS/graphql-node-review.ts and src/unnamed/part_000).

The persistent store is modelled as explicit lists of rows (users,
settings, activity_log); timestamps (NOW(), new Date(), Date.now()) are
passed in as Nat parameters; generated row ids (serial column /
crypto.randomUUID) are modelled by a deterministic counter carried in the
store.  Each resolver or mutation becomes a pure function from the store
(and, where the source consults it, the cache) to its result together
with the updated store/cache.
-/

namespace SettingsService

/-- User role enumeration from the GraphQL schema (ADMIN / MEMBER / VIEWER). -/
inductive Role where
  | ADMIN
  | MEMBER
  | VIEWER
deriving DecidableEq

/-- A row of the `users` table (`created_at` modelled as a Nat timestamp). -/
structure UserRow where
  id : String
  username : String
  email : String
  role : Role
  createdAt : Nat
deriving DecidableEq

/-- A row of the `settings` table (`updated_by` is nullable). -/
structure SettingRow where
  id : String
  userId : String
  key : String
  value : String
  updatedAt : Nat
  updatedBy : Option String
deriving DecidableEq

/-- A row of the `activity_log` table. -/
structure ActivityRow where
  id : String
  userId : String
  action : String
  timestamp : Nat
  metadata : Option String
deriving DecidableEq

/-- The persistent store: the three entity collections plus a counter
modelling id generation for inserted settings rows. -/
structure Store where
  users : List UserRow
  settings : List SettingRow
  activity : List ActivityRow
  nextId : Nat
deriving DecidableEq

/-- Point lookup `SELECT ... FROM users WHERE id = $1`. -/
def findUser (s : Store) (id : String) : Option UserRow :=
  s.users.find? (fun u => u.id == id)

/-- The settings rows stored for a given (user id, key) pair. -/
def rowsFor (s : Store) (u k : String) : List SettingRow :=
  s.settings.filter (fun r => r.userId == u && r.key == k)

/-- The `DO UPDATE SET setting_value = $3, updated_at = NOW()` action of
the upsert, applied to a row when it is the conflicting (user id, key)
row: only value and updated-at change. -/
def updRow (u k v : String) (now : Nat) (r : SettingRow) : SettingRow :=
  if r.userId == u && r.key == k then { r with value := v, updatedAt := now }
  else r

/-- Modelled from the spec: the store adapter's settings upsert.  The SQL
text is in the source (`INSERT INTO settings ... ON CONFLICT
(user_id, setting_key) DO UPDATE SET setting_value = $3, updated_at =
NOW()`), but the database schema (the unique index on
(user_id, setting_key) implied by the ON CONFLICT target, and the
foreign key from settings.user_id to users that makes an insert for a
missing user fail with a referential violation) is not in src/; those
constraint semantics follow the spec's store-adapter description
("insert-or-update-on-conflict keyed by (user id, key)"; "referential
violation because the user does not exist").  On conflict only
setting_value and updated_at are overwritten; a fresh insert leaves
updated_by at its NULL default (the nodeJS variant writes
`updated_by: null` explicitly).  Returns the resulting row (RETURNING
clause), or none when the insert is rejected. -/
def upsertSetting (s : Store) (userId key value : String) (now : Nat) :
    Option (Store × SettingRow) :=
  match (rowsFor s userId key).head? with
  | some r0 =>
    some ({ s with settings := s.settings.map (updRow userId key value now) },
      { r0 with value := value, updatedAt := now })
  | none =>
    if (findUser s userId).isSome then
      let row : SettingRow :=
        { id := "s" ++ Nat.repr s.nextId, userId := userId, key := key,
          value := value, updatedAt := now, updatedBy := none }
      some ({ s with settings := s.settings ++ [row], nextId := s.nextId + 1 }, row)
    else
      none

/-- Result type of the `updateSettings` mutation. -/
structure SettingsPayload where
  success : Bool
  user : UserRow
  settings : List SettingRow
deriving DecidableEq

/-- Result type of the `bulkUpdateSettings` mutation. -/
structure BulkSettingsPayload where
  success : Bool
  updatedCount : Nat
  failedUserIds : List String
deriving DecidableEq

/-- Result type of the `deleteUser` mutation. -/
structure DeletePayload where
  success : Bool
  deletedId : String
deriving DecidableEq

/-- One element of the `updates` argument of `bulkUpdateSettings`. -/
structure BulkSettingInput where
  userId : String
  key : String
  value : String
deriving DecidableEq

/-- The `for (const { key, value } of settings)` loop of `updateSettings`:
upserts each entry in list order, collecting the returned rows; a thrown
store error stops the loop, leaving the store as already written
(the source wraps no transaction around the entries). -/
def runSettingsLoop (userId : String) (now : Nat) :
    Store → List (String × String) → Store × Except String (List SettingRow)
  | s, [] => (s, Except.ok [])
  | s, (k, v) :: rest =>
    match upsertSetting s userId k v now with
    | none => (s, Except.error "upsert failed")
    | some (s1, row) =>
      let res := runSettingsLoop userId now s1 rest
      (res.1, match res.2 with
        | Except.ok rows => Except.ok (row :: rows)
        | Except.error e => Except.error e)

/-- The `updateSettings` mutation: verify the user exists (throwing
"User not found" otherwise, before any write), then upsert the entries in
list order and return the user row fetched at the start plus the upserted
rows in input order.  The store component of the result is the store at
return or throw time. -/
def updateSettings (s : Store) (userId : String)
    (settings : List (String × String)) (now : Nat) :
    Store × Except String SettingsPayload :=
  match findUser s userId with
  | none => (s, Except.error "User not found")
  | some u =>
    let res := runSettingsLoop userId now s settings
    (res.1, match res.2 with
      | Except.ok rows => Except.ok { success := true, user := u, settings := rows }
      | Except.error e => Except.error e)

/-- The `for (const { userId, key, value } of updates)` loop of
`bulkUpdateSettings`: per entry, a successful upsert increments
`updatedCount`, a caught failure appends the entry's userId to
`failedUserIds`; processing always continues with the rest. -/
def bulkLoop (now : Nat) : Store → List BulkSettingInput → Store × Nat × List String
  | s, [] => (s, 0, [])
  | s, t :: rest =>
    match upsertSetting s t.userId t.key t.value now with
    | some (s1, _) =>
      let res := bulkLoop now s1 rest
      (res.1, res.2.1 + 1, res.2.2)
    | none =>
      let res := bulkLoop now s rest
      (res.1, res.2.1, t.userId :: res.2.2)

/-- The `bulkUpdateSettings` mutation: runs the per-entry loop and reports
`success` exactly when `failedUserIds` is empty
(`failedUserIds.length === 0`). -/
def bulkUpdateSettings (s : Store) (updates : List BulkSettingInput) (now : Nat) :
    Store × BulkSettingsPayload :=
  let res := bulkLoop now s updates
  (res.1, { success := res.2.2.length == 0, updatedCount := res.2.1,
            failedUserIds := res.2.2 })

/-- One store delete statement, as issued by `deleteUser`. -/
inductive StoreOp where
  | deleteActivityByUser (id : String)
  | deleteSettingsByUser (id : String)
  | deleteUserById (id : String)
deriving DecidableEq

/-- Executes one delete statement against the store. -/
def execOp (s : Store) : StoreOp → Store
  | StoreOp.deleteActivityByUser i =>
    { s with activity := s.activity.filter (fun a => a.userId != i) }
  | StoreOp.deleteSettingsByUser i =>
    { s with settings := s.settings.filter (fun r => r.userId != i) }
  | StoreOp.deleteUserById i =>
    { s with users := s.users.filter (fun u => u.id != i) }

/-- The delete statements issued by the nodeJS variant's `deleteUser`, in
program order: activity_log, then settings, then users. -/
def deleteUserOps (id : String) : List StoreOp :=
  [StoreOp.deleteActivityByUser id, StoreOp.deleteSettingsByUser id,
   StoreOp.deleteUserById id]

/-- The `deleteUser` mutation of the nodeJS variant
(src/nodeJS/graphql-node-review.ts): executes its three deletes in order
and unconditionally reports success with the requested id. -/
def deleteUser (s : Store) (id : String) : Store × DeletePayload :=
  ((deleteUserOps id).foldl execOp s, { success := true, deletedId := id })

/-- The delete statements issued by the part_000 variant's `deleteUser`:
settings, then users — it issues no delete on activity_log. -/
def deleteUserP0Ops (id : String) : List StoreOp :=
  [StoreOp.deleteSettingsByUser id, StoreOp.deleteUserById id]

/-- The `deleteUser` mutation of the part_000 variant
(src/unnamed/part_000): deletes settings then the user row and reports
success; activity_log rows are left untouched. -/
def deleteUserP0 (s : Store) (id : String) : Store × DeletePayload :=
  ((deleteUserP0Ops id).foldl execOp s, { success := true, deletedId := id })

/-- Cache TTL: five minutes in milliseconds (`5 * 60 * 1000`). -/
def CACHE_TTL : Nat := 5 * 60 * 1000

/-- One cache slot: the cached user row and its insertion timestamp. -/
structure CacheEntry where
  data : UserRow
  timestamp : Nat
deriving DecidableEq

/-- The process-wide cache of part_000 (`Map<string, {data, timestamp}>`),
modelled as an association list; `Map.set`'s in-place replacement is
modelled by inserting in front of the erased old binding, which is
observationally the same for lookups. -/
abbrev Cache := List (String × CacheEntry)

/-- part_000's `getCache`: an entry whose age has reached the TTL is
treated as absent (`Date.now() - entry.timestamp < CACHE_TTL`). -/
def getCache (c : Cache) (key : String) (now : Nat) : Option UserRow :=
  match c.find? (fun e => e.1 == key) with
  | some e => if now - e.2.timestamp < CACHE_TTL then some e.2.data else none
  | none => none

/-- part_000's `setCache`: stores the value under the key with the current
time as insertion timestamp, replacing any previous binding. -/
def setCache (c : Cache) (key : String) (data : UserRow) (now : Nat) : Cache :=
  (key, { data := data, timestamp := now }) :: c.filter (fun e => e.1 != key)

/-- part_000's `Query.user` resolver: read-through cache under
`"user:" + id`; on miss, a store point fetch (the Bool reports whether the
store was queried); a found row populates the cache, an absent row yields
null and is not cached. -/
def queryUser (store : Store) (c : Cache) (id : String) (now : Nat) :
    Option UserRow × Cache × Bool :=
  match getCache c ("user:" ++ id) now with
  | some u => (some u, c, false)
  | none =>
    match findUser store id with
    | none => (none, c, true)
    | some u => (some u, setCache c ("user:" ++ id) u now, true)

/-- The `Query.users` resolver (nodeJS variant): one independent point
fetch per id, results in input order, null for an absent user. -/
def usersQuery (s : Store) (ids : List String) : List (Option UserRow) :=
  ids.map (fun id => findUser s id)

/-- The `Setting.updatedBy` resolver: when no updater id is recorded the
result is null with no store lookup (JS truthiness also treats an empty
string id as absent); otherwise a user point lookup. -/
def settingUpdatedBy (s : Store) (updatedById : Option String) : Option UserRow :=
  match updatedById with
  | none => none
  | some uid => if uid = "" then none else findUser s uid

/-- The value of the last entry with the given key in a settings-input
list, if any (the spec's "last write wins" reference value). -/
def lastValueFor : List (String × String) → String → Option String
  | [], _ => none
  | e :: rest, k =>
    match lastValueFor rest k with
    | some w => some w
    | none => if e.1 == k then some e.2 else none

/-- The (user id, key) uniqueness invariant on the settings table. -/
def SettingsUnique (s : Store) : Prop :=
  ∀ u k, (rowsFor s u k).length ≤ 1

/-- Referential invariant: every settings row's user id denotes an
existing user row. -/
def StoreFKOk (s : Store) : Prop :=
  ∀ r ∈ s.settings, (findUser s r.userId).isSome

/-- Every settings row of the second store either records no updater or
keeps the updater recorded for the same row id in the first store. -/
def NoNewUpdater (old new : Store) : Prop :=
  ∀ r ∈ new.settings,
    r.updatedBy = none ∨ ∃ r0 ∈ old.settings, r0.id = r.id ∧ r0.updatedBy = r.updatedBy

/-- Concrete user row used by the example stores. -/
def userU1 : UserRow :=
  { id := "U1", username := "alice", email := "alice@example.com",
    role := Role.MEMBER, createdAt := 10 }

/-- Concrete user row with id "A". -/
def userA : UserRow :=
  { id := "A", username := "ann", email := "ann@example.com",
    role := Role.ADMIN, createdAt := 1 }

/-- Concrete user row with id "C". -/
def userC : UserRow :=
  { id := "C", username := "ces", email := "ces@example.com",
    role := Role.VIEWER, createdAt := 3 }

/-- A store holding only user U1, no settings, no activity. -/
def storeC1 : Store :=
  { users := [userU1], settings := [], activity := [], nextId := 0 }

/-- The empty store. -/
def storeEmpty : Store :=
  { users := [], settings := [], activity := [], nextId := 0 }

/-- A store holding users A and C but no user B. -/
def storeAC : Store :=
  { users := [userA, userC], settings := [], activity := [], nextId := 0 }

/-- A concrete activity row owned by U1. -/
def activityU1 : ActivityRow :=
  { id := "act1", userId := "U1", action := "login", timestamp := 5,
    metadata := none }

/-- A store holding user U1 together with one of U1's activity rows. -/
def storeDel : Store :=
  { users := [userU1], settings := [], activity := [activityU1], nextId := 0 }

/-- The spec's concrete bulk-update input: two entries for the existing
user U1 around one entry for the non-existent user `bad`. -/
def updatesC1 : List BulkSettingInput :=
  [{ userId := "U1", key := "a", value := "1" },
   { userId := "bad", key := "b", value := "2" },
   { userId := "U1", key := "c", value := "3" }]

/-- A bulk-update input in which the same non-existent user id fails
twice. -/
def updatesDup : List BulkSettingInput :=
  [{ userId := "bad", key := "a", value := "1" },
   { userId := "bad", key := "b", value := "2" }]

/-! ### Helper lemmas -/

/-- `updRow` never changes a row's user id. -/
theorem updRow_userId (u k v : String) (now : Nat) (r : SettingRow) :
    (updRow u k v now r).userId = r.userId := by
  unfold updRow; split <;> rfl

/-- `updRow` never changes a row's key. -/
theorem updRow_key (u k v : String) (now : Nat) (r : SettingRow) :
    (updRow u k v now r).key = r.key := by
  unfold updRow; split <;> rfl

/-- `updRow` never changes a row's id. -/
theorem updRow_id (u k v : String) (now : Nat) (r : SettingRow) :
    (updRow u k v now r).id = r.id := by
  unfold updRow; split <;> rfl

/-- `updRow` never changes a row's recorded updater. -/
theorem updRow_updatedBy (u k v : String) (now : Nat) (r : SettingRow) :
    (updRow u k v now r).updatedBy = r.updatedBy := by
  unfold updRow; split <;> rfl

/-- Filtering by any (user id, key) pair commutes with the conflict
update, because the update keeps user id and key. -/
theorem filter_map_updRow (u k v : String) (now : Nat) (u' k' : String)
    (l : List SettingRow) :
    (l.map (updRow u k v now)).filter (fun r => r.userId == u' && r.key == k')
      = (l.filter (fun r => r.userId == u' && r.key == k')).map (updRow u k v now) := by
  induction l with
  | nil => rfl
  | cons a t ih =>
    simp only [List.map_cons, List.filter_cons, updRow_userId, updRow_key]
    by_cases h : (a.userId == u' && a.key == k') = true
    · simp [h, ih]
    · simp [h, ih]

/-- The conflict update is the identity on rows filtered by a different
(user id, key) pair. -/
theorem map_updRow_frame (u k v : String) (now : Nat) (u' k' : String)
    (l : List SettingRow) (hne : ¬(u' = u ∧ k' = k)) :
    (l.filter (fun r => r.userId == u' && r.key == k')).map (updRow u k v now)
      = l.filter (fun r => r.userId == u' && r.key == k') := by
  induction l with
  | nil => rfl
  | cons a t ih =>
    simp only [List.filter_cons]
    by_cases h : (a.userId == u' && a.key == k') = true
    · have ha : updRow u k v now a = a := by
        unfold updRow
        have hcond : ¬((a.userId == u && a.key == k) = true) := by
          simp only [Bool.and_eq_true, beq_iff_eq] at h ⊢
          rintro ⟨h1, h2⟩
          exact hne ⟨by rw [← h.1, h1], by rw [← h.2, h2]⟩
        simp [hcond]
      simp [h, ha, ih]
    · simp [h, ih]

/-- A list of length at most one is the singleton of its head. -/
theorem head_unique_eq {α : Type} (l : List α) (a : α)
    (h1 : l.head? = some a) (h2 : l.length ≤ 1) : l = [a] := by
  cases l with
  | nil => cases h1
  | cons b t =>
    cases t with
    | nil => simp only [List.head?] at h1; rw [Option.some.injEq] at h1; rw [h1]
    | cons c t2 => simp at h2

/-- The head of a list is a member. -/
theorem head_mem {α : Type} (l : List α) (a : α) (h : l.head? = some a) : a ∈ l := by
  cases l with
  | nil => cases h
  | cons b t =>
    simp only [List.head?] at h
    rw [Option.some.injEq] at h
    rw [← h]
    exact List.mem_cons_self b t

/-- A point user lookup only depends on the users collection. -/
theorem findUser_congr (s s' : Store) (h : s'.users = s.users) (x : String) :
    findUser s' x = findUser s x := by
  unfold findUser; rw [h]

/-- Structural characterization of a successful upsert: either the
conflict-update path fired on an existing (user id, key) row, or a fresh
row was inserted for an existing user. -/
theorem upsertSetting_cases (s : Store) (u k v : String) (now : Nat)
    (s' : Store) (row : SettingRow)
    (h : upsertSetting s u k v now = some (s', row)) :
    (∃ r0, (rowsFor s u k).head? = some r0 ∧
      s' = { s with settings := s.settings.map (updRow u k v now) } ∧
      row = { r0 with value := v, updatedAt := now }) ∨
    ((rowsFor s u k).head? = none ∧ (findUser s u).isSome = true ∧
      s' = { s with
        settings := s.settings ++
          [{ id := "s" ++ Nat.repr s.nextId, userId := u, key := k, value := v,
             updatedAt := now, updatedBy := none }],
        nextId := s.nextId + 1 } ∧
      row = { id := "s" ++ Nat.repr s.nextId, userId := u, key := k, value := v,
              updatedAt := now, updatedBy := none }) := by
  unfold upsertSetting at h
  cases hh : (rowsFor s u k).head? with
  | some r0 =>
    rw [hh] at h
    simp only [Option.some.injEq, Prod.mk.injEq] at h
    exact Or.inl ⟨r0, rfl, h.1.symm, h.2.symm⟩
  | none =>
    rw [hh] at h
    by_cases hf : (findUser s u).isSome = true
    · simp only [hf, if_true, Option.some.injEq, Prod.mk.injEq] at h
      exact Or.inr ⟨rfl, hf, h.1.symm, h.2.symm⟩
    · simp only [hf] at h
      simp at h

/-- A failed upsert is exactly: no conflicting row and no such user. -/
theorem upsert_none_iff (s : Store) (u k v : String) (now : Nat) :
    upsertSetting s u k v now = none ↔
      ((rowsFor s u k).head? = none ∧ (findUser s u).isSome = false) := by
  unfold upsertSetting
  cases hh : (rowsFor s u k).head? with
  | some r0 => simp
  | none =>
    cases hf : (findUser s u).isSome with
    | true => simp [hf]
    | false => simp [hf]

/-- A successful upsert leaves the users collection unchanged. -/
theorem upsert_users_eq (s : Store) (u k v : String) (now : Nat)
    (s' : Store) (row : SettingRow)
    (h : upsertSetting s u k v now = some (s', row)) : s'.users = s.users := by
  rcases upsertSetting_cases s u k v now s' row h with
    ⟨r0, _, rfl, _⟩ | ⟨_, _, rfl, _⟩ <;> rfl

/-- After a successful upsert under the uniqueness invariant, the stored
values for the written (user id, key) pair are exactly the written value. -/
theorem upsert_rowsFor_target (s : Store) (u k v : String) (now : Nat)
    (s' : Store) (row : SettingRow) (huniq : SettingsUnique s)
    (h : upsertSetting s u k v now = some (s', row)) :
    (rowsFor s' u k).map (fun r => r.value) = [v] := by
  rcases upsertSetting_cases s u k v now s' row h with
    ⟨r0, hh, rfl, _⟩ | ⟨hh, _, rfl, _⟩
  · have hsingle : rowsFor s u k = [r0] :=
      head_unique_eq _ _ hh (huniq u k)
    have hmatch : (r0.userId == u && r0.key == k) = true := by
      have hm : r0 ∈ rowsFor s u k := head_mem _ _ hh
      exact (List.mem_filter.mp hm).2
    show ((s.settings.map (updRow u k v now)).filter
        (fun r => r.userId == u && r.key == k)).map (fun r => r.value) = [v]
    rw [filter_map_updRow]
    show ((rowsFor s u k).map (updRow u k v now)).map (fun r => r.value) = [v]
    rw [hsingle]
    simp [updRow, hmatch]
  · have hempty : rowsFor s u k = [] := by
      cases he : rowsFor s u k with
      | nil => rfl
      | cons x xs => rw [he] at hh; cases hh
    show ((s.settings ++
        [({ id := "s" ++ Nat.repr s.nextId, userId := u, key := k, value := v,
            updatedAt := now, updatedBy := none } : SettingRow)]).filter
        (fun r => r.userId == u && r.key == k)).map (fun r => r.value) = [v]
    rw [List.filter_append]
    show ((rowsFor s u k ++
        ([({ id := "s" ++ Nat.repr s.nextId, userId := u, key := k, value := v,
             updatedAt := now, updatedBy := none } : SettingRow)].filter
          (fun r => r.userId == u && r.key == k))).map (fun r => r.value)) = [v]
    rw [hempty]
    simp

/-- A successful upsert leaves the rows of every other (user id, key)
pair unchanged. -/
theorem upsert_rowsFor_frame (s : Store) (u k v : String) (now : Nat)
    (s' : Store) (row : SettingRow) (u' k' : String) (hne : ¬(u' = u ∧ k' = k))
    (h : upsertSetting s u k v now = some (s', row)) :
    rowsFor s' u' k' = rowsFor s u' k' := by
  rcases upsertSetting_cases s u k v now s' row h with
    ⟨r0, hh, rfl, _⟩ | ⟨hh, _, rfl, _⟩
  · show (s.settings.map (updRow u k v now)).filter
        (fun r => r.userId == u' && r.key == k') = rowsFor s u' k'
    rw [filter_map_updRow]
    exact map_updRow_frame u k v now u' k' s.settings hne
  · show ((s.settings ++
        [({ id := "s" ++ Nat.repr s.nextId, userId := u, key := k, value := v,
            updatedAt := now, updatedBy := none } : SettingRow)]).filter
        (fun r => r.userId == u' && r.key == k')) = rowsFor s u' k'
    rw [List.filter_append]
    have hrow : ¬((u == u' && k == k') = true) := by
      simp only [Bool.and_eq_true, beq_iff_eq]
      rintro ⟨h1, h2⟩
      exact hne ⟨h1.symm, h2.symm⟩
    simp only [List.filter_cons, List.filter_nil]
    rw [if_neg hrow]
    simp [rowsFor]

/-- A successful upsert preserves the (user id, key) uniqueness
invariant. -/
theorem upsert_unique (s : Store) (u k v : String) (now : Nat)
    (s' : Store) (row : SettingRow) (huniq : SettingsUnique s)
    (h : upsertSetting s u k v now = some (s', row)) : SettingsUnique s' := by
  intro u' k'
  by_cases hc : u' = u ∧ k' = k
  · obtain ⟨rfl, rfl⟩ := hc
    have hv := upsert_rowsFor_target s u' k' v now s' row huniq h
    have : (rowsFor s' u' k').length = 1 := by
      have := congrArg List.length hv
      simpa using this
    omega
  · rw [upsert_rowsFor_frame s u k v now s' row u' k' hc h]
    exact huniq u' k'

/-- A successful upsert starting from a referentially sound store is only
possible for an existing user. -/
theorem upsert_some_user_exists (s : Store) (u k v : String) (now : Nat)
    (s' : Store) (row : SettingRow) (hfk : StoreFKOk s)
    (h : upsertSetting s u k v now = some (s', row)) :
    (findUser s u).isSome = true := by
  rcases upsertSetting_cases s u k v now s' row h with
    ⟨r0, hh, _, _⟩ | ⟨_, hf, _, _⟩
  · have hm : r0 ∈ rowsFor s u k := head_mem _ _ hh
    have hmem := List.mem_filter.mp hm
    have huid : r0.userId = u := by
      have := hmem.2
      simp only [Bool.and_eq_true, beq_iff_eq] at this
      exact this.1
    have := hfk r0 hmem.1
    rw [huid] at this
    exact this
  · exact hf

/-- A successful upsert preserves the referential invariant. -/
theorem upsert_fk_preserved (s : Store) (u k v : String) (now : Nat)
    (s' : Store) (row : SettingRow) (hfk : StoreFKOk s)
    (h : upsertSetting s u k v now = some (s', row)) : StoreFKOk s' := by
  have husers : s'.users = s.users := upsert_users_eq s u k v now s' row h
  have hfind : ∀ x, findUser s' x = findUser s x := findUser_congr s s' husers
  rcases upsertSetting_cases s u k v now s' row h with
    ⟨r0, _, rfl, _⟩ | ⟨_, hf, rfl, _⟩
  · intro r hr
    simp only [List.mem_map] at hr
    obtain ⟨r1, hr1, hrr⟩ := hr
    rw [hfind, ← hrr, updRow_userId]
    exact hfk r1 hr1
  · intro r hr
    rw [List.mem_append] at hr
    rcases hr with hr | hr
    · rw [hfind]
      exact hfk r hr
    · simp only [List.mem_singleton] at hr
      rw [hfind, hr]
      exact hf

/-- A successful upsert records no updater: every resulting settings row
either has a null updater or keeps the updater of the same row id. -/
theorem upsert_noNewUpdater (s : Store) (u k v : String) (now : Nat)
    (s' : Store) (row : SettingRow)
    (h : upsertSetting s u k v now = some (s', row)) : NoNewUpdater s s' := by
  rcases upsertSetting_cases s u k v now s' row h with
    ⟨r0, _, rfl, _⟩ | ⟨_, _, rfl, _⟩
  · intro r hr
    simp only [List.mem_map] at hr
    obtain ⟨r1, hr1, hrr⟩ := hr
    exact Or.inr ⟨r1, hr1, by rw [← hrr, updRow_id], by rw [← hrr, updRow_updatedBy]⟩
  · intro r hr
    rw [List.mem_append] at hr
    rcases hr with hr | hr
    · exact Or.inr ⟨r, hr, rfl, rfl⟩
    · simp only [List.mem_singleton] at hr
      rw [hr]
      exact Or.inl rfl

/-- `NoNewUpdater` is reflexive. -/
theorem noNewUpdater_refl (s : Store) : NoNewUpdater s s :=
  fun r hr => Or.inr ⟨r, hr, rfl, rfl⟩

/-- `NoNewUpdater` composes along successive stores. -/
theorem noNewUpdater_trans (a b c : Store)
    (h1 : NoNewUpdater a b) (h2 : NoNewUpdater b c) : NoNewUpdater a c := by
  intro r hr
  rcases h2 r hr with hnone | ⟨r1, hr1, hid, hub⟩
  · exact Or.inl hnone
  · rcases h1 r1 hr1 with hnone1 | ⟨r0, hr0, hid0, hub0⟩
    · exact Or.inl (by rw [← hub]; exact hnone1)
    · exact Or.inr ⟨r0, hr0, hid0.trans hid, hub0.trans hub⟩

/-- The bulk loop counts every entry exactly once: successes plus
failures equal the input length. -/
theorem bulkLoop_count (now : Nat) :
    ∀ (updates : List BulkSettingInput) (s : Store),
      (bulkLoop now s updates).2.1 + ((bulkLoop now s updates).2.2).length
        = updates.length := by
  intro updates
  induction updates with
  | nil => intro s; simp [bulkLoop]
  | cons t rest ih =>
    intro s
    cases h : upsertSetting s t.userId t.key t.value now with
    | some p =>
      obtain ⟨s1, row⟩ := p
      have := ih s1
      simp only [bulkLoop, h, List.length_cons]
      omega
    | none =>
      have := ih s
      simp only [bulkLoop, h, List.length_cons]
      omega

/-- The bulk loop, started from a referentially sound store, fails
exactly on the entries whose user is missing: the failure list has one
entry, the entry's user id, per failed triple (in input order), and the
success count is the number of triples whose user exists. -/
theorem bulkLoop_char (now : Nat) :
    ∀ (updates : List BulkSettingInput) (s : Store), StoreFKOk s →
      (bulkLoop now s updates).2.2
        = (updates.filter (fun t => (findUser s t.userId).isNone)).map
            (fun t => t.userId) ∧
      (bulkLoop now s updates).2.1
        = (updates.filter (fun t => (findUser s t.userId).isSome)).length := by
  intro updates
  induction updates with
  | nil => intro s _; constructor <;> simp [bulkLoop]
  | cons t rest ih =>
    intro s hfk
    cases h : upsertSetting s t.userId t.key t.value now with
    | some p =>
      obtain ⟨s1, row⟩ := p
      have hex : (findUser s t.userId).isSome = true :=
        upsert_some_user_exists s t.userId t.key t.value now s1 row hfk h
      have husers : s1.users = s.users :=
        upsert_users_eq s t.userId t.key t.value now s1 row h
      have hfk1 : StoreFKOk s1 :=
        upsert_fk_preserved s t.userId t.key t.value now s1 row hfk h
      have hpred1 : (fun x : BulkSettingInput => (findUser s1 x.userId).isNone)
          = (fun x : BulkSettingInput => (findUser s x.userId).isNone) := by
        funext x; rw [findUser_congr s s1 husers]
      have hpred2 : (fun x : BulkSettingInput => (findUser s1 x.userId).isSome)
          = (fun x : BulkSettingInput => (findUser s x.userId).isSome) := by
        funext x; rw [findUser_congr s s1 husers]
      obtain ⟨ih1, ih2⟩ := ih s1 hfk1
      rw [hpred1] at ih1
      rw [hpred2] at ih2
      have hnone : (findUser s t.userId).isNone = false := by
        cases ho : findUser s t.userId with
        | none => rw [ho] at hex; cases hex
        | some w => rfl
      constructor
      · simp only [bulkLoop, h, List.filter_cons, hnone]
        simpa using ih1
      · simp only [bulkLoop, h, List.filter_cons, hex]
        simp [ih2]
    | none =>
      obtain ⟨hh, hf⟩ := (upsert_none_iff s t.userId t.key t.value now).mp h
      have hnone : (findUser s t.userId).isNone = true := by
        cases ho : findUser s t.userId with
        | none => rfl
        | some w => rw [ho] at hf; cases hf
      obtain ⟨ih1, ih2⟩ := ih s hfk
      constructor
      · simp only [bulkLoop, h, List.filter_cons, hnone]
        simp [ih1]
      · simp only [bulkLoop, h, List.filter_cons, hf]
        simpa using ih2

/-- The settings loop of `updateSettings` never records an updater. -/
theorem runLoop_fst_noNewUpdater (userId : String) (now : Nat) :
    ∀ (entries : List (String × String)) (s : Store),
      NoNewUpdater s (runSettingsLoop userId now s entries).1 := by
  intro entries
  induction entries with
  | nil => intro s; exact noNewUpdater_refl s
  | cons e rest ih =>
    intro s
    obtain ⟨k, v⟩ := e
    cases h : upsertSetting s userId k v now with
    | none =>
      simp only [runSettingsLoop, h]
      exact noNewUpdater_refl s
    | some p =>
      obtain ⟨s1, row⟩ := p
      simp only [runSettingsLoop, h]
      exact noNewUpdater_trans s s1 (runSettingsLoop userId now s1 rest).1
        (upsert_noNewUpdater s userId k v now s1 row h) (ih s1)

/-- The bulk loop never records an updater. -/
theorem bulkLoop_fst_noNewUpdater (now : Nat) :
    ∀ (updates : List BulkSettingInput) (s : Store),
      NoNewUpdater s (bulkLoop now s updates).1 := by
  intro updates
  induction updates with
  | nil => intro s; exact noNewUpdater_refl s
  | cons t rest ih =>
    intro s
    cases h : upsertSetting s t.userId t.key t.value now with
    | none =>
      simp only [bulkLoop, h]
      exact ih s
    | some p =>
      obtain ⟨s1, row⟩ := p
      simp only [bulkLoop, h]
      exact noNewUpdater_trans s s1 (bulkLoop now s1 rest).1
        (upsert_noNewUpdater s t.userId t.key t.value now s1 row h) (ih s1)

/-- `updateSettings` never records an updater in the resulting store. -/
theorem updateSettings_fst_noNewUpdater (s : Store) (userId : String)
    (entries : List (String × String)) (now : Nat) :
    NoNewUpdater s (updateSettings s userId entries now).1 := by
  unfold updateSettings
  cases hu : findUser s userId with
  | none => exact noNewUpdater_refl s
  | some u => exact runLoop_fst_noNewUpdater userId now entries s

/-- Dropping the elements with a given projection value from a list and
then keeping only them yields the empty list. -/
theorem filter_ne_self {α : Type} (l : List α) (f : α → String) (i : String) :
    ((l.filter (fun a => f a != i)).filter (fun a => f a == i)) = [] := by
  induction l with
  | nil => rfl
  | cons a t ih =>
    by_cases h : f a = i
    · simp [List.filter_cons, h, ih]
    · simp [List.filter_cons, h, ih]

/-- Writing the cache and reading the same key back yields the written
value while its age is below the TTL, and nothing once the TTL is
reached. -/
theorem getCache_setCache_self (c : Cache) (key : String) (u : UserRow) (t0 t : Nat) :
    getCache (setCache c key u t0) key t
      = if t - t0 < CACHE_TTL then some u else none := by
  simp [getCache, setCache, List.find?]

/-- Characterization of the settings loop for an existing user under the
uniqueness invariant: it completes with the collected rows, preserves the
users collection and the uniqueness invariant, stores for each key
written the value of its last entry, and leaves unwritten keys of the
user unchanged. -/
theorem runLoop_char (userId : String) (now : Nat) :
    ∀ (entries : List (String × String)) (s : Store),
      SettingsUnique s → (findUser s userId).isSome = true →
      (∃ rows, (runSettingsLoop userId now s entries).2 = Except.ok rows) ∧
      (runSettingsLoop userId now s entries).1.users = s.users ∧
      SettingsUnique (runSettingsLoop userId now s entries).1 ∧
      (∀ kk v, lastValueFor entries kk = some v →
        ((rowsFor (runSettingsLoop userId now s entries).1 userId kk).map
          (fun r => r.value)) = [v]) ∧
      (∀ kk, lastValueFor entries kk = none →
        rowsFor (runSettingsLoop userId now s entries).1 userId kk
          = rowsFor s userId kk) := by
  intro entries
  induction entries with
  | nil =>
    intro s huniq hex
    refine ⟨⟨[], rfl⟩, rfl, huniq, ?_, ?_⟩
    · intro kk v hv
      cases hv
    · intro kk hv
      rfl
  | cons e rest ih =>
    intro s huniq hex
    obtain ⟨k0, v0⟩ := e
    cases h : upsertSetting s userId k0 v0 now with
    | none =>
      exfalso
      obtain ⟨_, hf⟩ := (upsert_none_iff s userId k0 v0 now).mp h
      rw [hex] at hf
      cases hf
    | some p =>
      obtain ⟨s1, row⟩ := p
      have husers : s1.users = s.users := upsert_users_eq s userId k0 v0 now s1 row h
      have huniq1 : SettingsUnique s1 := upsert_unique s userId k0 v0 now s1 row huniq h
      have hex1 : (findUser s1 userId).isSome = true := by
        rw [findUser_congr s s1 husers]
        exact hex
      obtain ⟨⟨rows2, hok⟩, husers2, huniq2, hsome2, hnone2⟩ := ih s1 huniq1 hex1
      refine ⟨⟨row :: rows2, ?_⟩, ?_, ?_, ?_, ?_⟩
      · simp only [runSettingsLoop, h]
        simp [hok]
      · simp only [runSettingsLoop, h]
        exact husers2.trans husers
      · simp only [runSettingsLoop, h]
        exact huniq2
      · intro kk v hv
        simp only [runSettingsLoop, h]
        cases hl : lastValueFor rest kk with
        | some w =>
          simp only [lastValueFor, hl, Option.some.injEq] at hv
          rw [← hv]
          exact hsome2 kk w hl
        | none =>
          simp only [lastValueFor, hl] at hv
          by_cases hkk : (k0 == kk) = true
          · rw [if_pos hkk] at hv
            rw [Option.some.injEq] at hv
            have hkeq : k0 = kk := by
              rw [beq_iff_eq] at hkk
              exact hkk
            rw [hnone2 kk hl, ← hkeq, ← hv]
            exact upsert_rowsFor_target s userId k0 v0 now s1 row huniq h
          · rw [if_neg hkk] at hv
            cases hv
      · intro kk hv
        simp only [runSettingsLoop, h]
        cases hl : lastValueFor rest kk with
        | some w =>
          exfalso
          simp only [lastValueFor, hl] at hv
          cases hv
        | none =>
          simp only [lastValueFor, hl] at hv
          by_cases hkk : (k0 == kk) = true
          · rw [if_pos hkk] at hv
            cases hv
          · have hne : ¬(userId = userId ∧ kk = k0) := by
              rintro ⟨_, hkkeq⟩
              rw [beq_iff_eq] at hkk
              exact hkk hkkeq.symm
            rw [hnone2 kk hl]
            exact upsert_rowsFor_frame s userId k0 v0 now s1 row userId kk hne h

/-! ### Claim theorems -/

/-- C1: `bulkUpdateSettings` processes the triples in order and a failed
upsert never aborts later triples: on [{U1,"a","1"}, {bad,"b","2"},
{U1,"c","3"}] with U1 existing and `bad` absent, the result is
success=false, updatedCount=2, failedUserIds=[bad], and both of U1's
settings ("a" before the failure, "c" after it) are persisted. -/
theorem bulk_update_isolated_failure_concrete :
    (bulkUpdateSettings storeC1 updatesC1 100).2
      = { success := false, updatedCount := 2, failedUserIds := ["bad"] } ∧
    ((bulkUpdateSettings storeC1 updatesC1 100).1.settings.map
        (fun r => (r.userId, r.key, r.value)))
      = [("U1", "a", "1"), ("U1", "c", "3")] := by
  constructor <;> rfl

/-- C2 counterexample: with both triples failing for the same absent user
`bad`, `failedUserIds` contains `bad` twice — the claimed duplicate
suppression does not hold on the code. -/
theorem bulk_failed_ids_duplicate_counterexample :
    (bulkUpdateSettings storeEmpty updatesDup 0).2.failedUserIds = ["bad", "bad"] ∧
    ¬ (((bulkUpdateSettings storeEmpty updatesDup 0).2.failedUserIds).count "bad" ≤ 1) := by
  constructor
  · rfl
  · decide

/-- C2 amended: starting from a referentially sound store, each failing
triple appends its user id to `failedUserIds` (one entry per failed
triple, in input order, duplicates not suppressed), while `updatedCount`
counts every successful triple. -/
theorem bulk_failed_ids_one_per_failed_triple
    (s : Store) (updates : List BulkSettingInput) (now : Nat) (hfk : StoreFKOk s) :
    (bulkUpdateSettings s updates now).2.failedUserIds
      = (updates.filter (fun t => (findUser s t.userId).isNone)).map
          (fun t => t.userId) ∧
    (bulkUpdateSettings s updates now).2.updatedCount
      = (updates.filter (fun t => (findUser s t.userId).isSome)).length := by
  have h := bulkLoop_char now updates s hfk
  simpa [bulkUpdateSettings] using h

/-- Witness for the amended C2 theorem at a concrete store and input. -/
theorem bulk_failed_ids_one_per_failed_triple_witness :
    (bulkUpdateSettings storeC1 updatesC1 100).2.failedUserIds
      = (updatesC1.filter (fun t => (findUser storeC1 t.userId).isNone)).map
          (fun t => t.userId) ∧
    (bulkUpdateSettings storeC1 updatesC1 100).2.updatedCount
      = (updatesC1.filter (fun t => (findUser storeC1 t.userId).isSome)).length :=
  bulk_failed_ids_one_per_failed_triple storeC1 updatesC1 100
    (by intro r hr; simp [storeC1] at hr)

/-- C3: when the target user does not exist, `updateSettings` fails with
the "User not found" error and returns the store unchanged — zero
settings rows are written. -/
theorem update_settings_missing_user_no_effect
    (s : Store) (userId : String) (entries : List (String × String)) (now : Nat)
    (h : findUser s userId = none) :
    updateSettings s userId entries now = (s, Except.error "User not found") := by
  simp [updateSettings, h]

/-- Witness for C3 at a concrete store and input. -/
theorem update_settings_missing_user_no_effect_witness :
    updateSettings storeEmpty "U1" [("k", "a")] 7
      = (storeEmpty, Except.error "User not found") :=
  update_settings_missing_user_no_effect storeEmpty "U1" [("k", "a")] 7 rfl

/-- C5 (code bug in the part_000 variant): the nodeJS variant's
`deleteUser` issues its deletes in exactly the order activity_log,
settings, users, always reports success with the requested id (also when
the user does not exist), and afterwards no activity, settings or user
row for the id remains; the part_000 variant, however, issues no delete
on activity_log, so on a store where U1 owns an activity row it reports
success while U1's activity row survives. -/
theorem delete_user_order_and_part0_divergence :
    (∀ (s : Store) (i : String),
      deleteUserOps i
        = [StoreOp.deleteActivityByUser i, StoreOp.deleteSettingsByUser i,
           StoreOp.deleteUserById i] ∧
      (deleteUser s i).2 = { success := true, deletedId := i } ∧
      (deleteUser s i).1.activity.filter (fun a => a.userId == i) = [] ∧
      (deleteUser s i).1.settings.filter (fun r => r.userId == i) = [] ∧
      (deleteUser s i).1.users.filter (fun u => u.id == i) = []) ∧
    ((deleteUserP0 storeDel "U1").2 = { success := true, deletedId := "U1" } ∧
      (deleteUserP0 storeDel "U1").1.activity = [activityU1]) := by
  constructor
  · intro s i
    refine ⟨rfl, rfl, ?_, ?_, ?_⟩
    · exact filter_ne_self s.activity (fun a => a.userId) i
    · exact filter_ne_self s.settings (fun r => r.userId) i
    · exact filter_ne_self s.users (fun u => u.id) i
  · constructor
    · rfl
    · rfl

/-- C7: `users(ids)` returns one element per input id, in input order:
position i holds the store lookup of the i-th id (null when absent), so a
missing user affects no other position; concretely, users(["A","B","C"])
with B absent yields [userA, null, userC]. -/
theorem users_query_pointwise :
    (∀ (s : Store) (ids : List String),
      (usersQuery s ids).length = ids.length ∧
      ∀ i : Nat, (usersQuery s ids)[i]? = (ids[i]?).map (fun x => findUser s x)) ∧
    usersQuery storeAC ["A", "B", "C"] = [some userA, none, some userC] := by
  refine ⟨fun s ids => ⟨?_, fun i => ?_⟩, ?_⟩
  · simp [usersQuery]
  · simp [usersQuery]
  · rfl

/-- C8: `updateSettings` of an existing user with the empty settings list
returns success with the user's unchanged row and an empty settings
list, and leaves the store (hence the user's timestamp and role fields,
and the settings table) untouched. -/
theorem update_settings_empty_noop
    (s : Store) (userId : String) (u : UserRow) (now : Nat)
    (h : findUser s userId = some u) :
    updateSettings s userId [] now
      = (s, Except.ok { success := true, user := u, settings := [] }) := by
  simp [updateSettings, h, runSettingsLoop]

/-- Witness for C8 at a concrete store. -/
theorem update_settings_empty_noop_witness :
    updateSettings storeC1 "U1" [] 42
      = (storeC1, Except.ok { success := true, user := userU1, settings := [] }) :=
  update_settings_empty_noop storeC1 "U1" userU1 42 (by decide)

/-- C9: every bulk-update triple contributes exactly one success or one
failure entry: updatedCount plus the number of failedUserIds entries
equals the input length. -/
theorem bulk_update_count_partition
    (s : Store) (updates : List BulkSettingInput) (now : Nat) :
    (bulkUpdateSettings s updates now).2.updatedCount
      + ((bulkUpdateSettings s updates now).2.failedUserIds).length
      = updates.length := by
  have h := bulkLoop_count now updates s
  simpa [bulkUpdateSettings] using h

/-- C10: neither mutation records the caller as updater — every settings
row after `updateSettings` or `bulkUpdateSettings` either has a null
updated-by or keeps the updated-by its row id had before — and the
`Setting.updatedBy` resolver maps a null updater reference to null. -/
theorem settings_updater_never_recorded :
    (∀ (s : Store) (userId : String) (entries : List (String × String)) (now : Nat),
      NoNewUpdater s (updateSettings s userId entries now).1) ∧
    (∀ (s : Store) (updates : List BulkSettingInput) (now : Nat),
      NoNewUpdater s (bulkUpdateSettings s updates now).1) ∧
    (∀ s : Store, settingUpdatedBy s none = none) := by
  refine ⟨fun s userId entries now => updateSettings_fst_noNewUpdater s userId entries now,
    fun s updates now => ?_, fun s => rfl⟩
  exact bulkLoop_fst_noNewUpdater now updates s

/-- Witness for C10 at a concrete store and inputs. -/
theorem settings_updater_never_recorded_witness :
    NoNewUpdater storeC1 (updateSettings storeC1 "U1" [("k", "v")] 5).1 ∧
    NoNewUpdater storeC1 (bulkUpdateSettings storeC1 updatesC1 100).1 ∧
    settingUpdatedBy storeC1 none = none :=
  ⟨settings_updater_never_recorded.1 storeC1 "U1" [("k", "v")] 5,
   settings_updater_never_recorded.2.1 storeC1 updatesC1 100,
   settings_updater_never_recorded.2.2 storeC1⟩

/-- C4: for an existing user and a cache that misses at time t0, the
first `user(id)` call queries the store, caches the row, and returns the
store's row; a second call whose age since t0 is below the five-minute
TTL is served from the cache without a store query and returns the same
row; a call at or past t0 + TTL treats the entry as absent and queries
the store again, still returning the store's row. -/
theorem user_query_cache_ttl
    (store : Store) (c0 : Cache) (i : String) (u : UserRow) (t0 t1 t2 : Nat)
    (hu : findUser store i = some u)
    (hmiss : getCache c0 ("user:" ++ i) t0 = none)
    (h1 : t1 - t0 < CACHE_TTL)
    (h2 : t0 + CACHE_TTL ≤ t2) :
    queryUser store c0 i t0 = (some u, setCache c0 ("user:" ++ i) u t0, true) ∧
    queryUser store (setCache c0 ("user:" ++ i) u t0) i t1
      = (some u, setCache c0 ("user:" ++ i) u t0, false) ∧
    (queryUser store (setCache c0 ("user:" ++ i) u t0) i t2).2.2 = true ∧
    (queryUser store (setCache c0 ("user:" ++ i) u t0) i t2).1 = some u := by
  have hget1 : getCache (setCache c0 ("user:" ++ i) u t0) ("user:" ++ i) t1 = some u := by
    rw [getCache_setCache_self, if_pos h1]
  have hget2 : getCache (setCache c0 ("user:" ++ i) u t0) ("user:" ++ i) t2 = none := by
    rw [getCache_setCache_self, if_neg]
    omega
  refine ⟨?_, ?_, ?_, ?_⟩
  · simp [queryUser, hmiss, hu]
  · simp [queryUser, hget1]
  · simp [queryUser, hget2, hu]
  · simp [queryUser, hget2, hu]

/-- Witness for C4 at a concrete store, an empty cache and concrete
times. -/
theorem user_query_cache_ttl_witness :
    queryUser storeC1 ([] : Cache) "U1" 0
      = (some userU1, setCache ([] : Cache) ("user:" ++ "U1") userU1 0, true) ∧
    queryUser storeC1 (setCache ([] : Cache) ("user:" ++ "U1") userU1 0) "U1" 1
      = (some userU1, setCache ([] : Cache) ("user:" ++ "U1") userU1 0, false) ∧
    (queryUser storeC1 (setCache ([] : Cache) ("user:" ++ "U1") userU1 0) "U1"
        CACHE_TTL).2.2 = true ∧
    (queryUser storeC1 (setCache ([] : Cache) ("user:" ++ "U1") userU1 0) "U1"
        CACHE_TTL).1 = some userU1 :=
  user_query_cache_ttl storeC1 ([] : Cache) "U1" userU1 0 1 CACHE_TTL
    (by decide) (by rfl) (by decide) (by decide)

/-- C6: after `updateSettings` on an existing user, for every key that
appears in the input list exactly one settings row exists for
(user, key) and its stored value is the value of the last entry with
that key (last write wins); the (user id, key) uniqueness invariant is
preserved, and the mutation completes successfully. -/
theorem update_settings_last_write_wins
    (s : Store) (userId : String) (u : UserRow)
    (entries : List (String × String)) (k v : String) (now : Nat)
    (huniq : SettingsUnique s) (hu : findUser s userId = some u)
    (hk : lastValueFor entries k = some v) :
    (∃ rows, (updateSettings s userId entries now).2
        = Except.ok { success := true, user := u, settings := rows }) ∧
    ((rowsFor (updateSettings s userId entries now).1 userId k).map
        (fun r => r.value)) = [v] ∧
    SettingsUnique (updateSettings s userId entries now).1 := by
  have hex : (findUser s userId).isSome = true := by rw [hu]; rfl
  obtain ⟨⟨rows, hok⟩, husers, huniq2, hsome, hnone⟩ :=
    runLoop_char userId now entries s huniq hex
  have hfst : (updateSettings s userId entries now).1
      = (runSettingsLoop userId now s entries).1 := by
    unfold updateSettings
    rw [hu]
  have hsnd : (updateSettings s userId entries now).2
      = Except.ok { success := true, user := u, settings := rows } := by
    unfold updateSettings
    rw [hu]
    show (match (runSettingsLoop userId now s entries).2 with
      | Except.ok rws =>
        Except.ok ({ success := true, user := u, settings := rws } : SettingsPayload)
      | Except.error e => Except.error e)
      = Except.ok ({ success := true, user := u, settings := rows } : SettingsPayload)
    rw [hok]
  refine ⟨⟨rows, hsnd⟩, ?_, ?_⟩
  · rw [hfst]
    exact hsome k v hk
  · rw [hfst]
    exact huniq2

/-- Witness for C6: updating U1 with [{k,"a"},{k,"b"}] stores "b" as the
single row for (U1, k). -/
theorem update_settings_last_write_wins_witness :
    (∃ rows, (updateSettings storeC1 "U1" [("k", "a"), ("k", "b")] 7).2
        = Except.ok { success := true, user := userU1, settings := rows }) ∧
    ((rowsFor (updateSettings storeC1 "U1" [("k", "a"), ("k", "b")] 7).1 "U1" "k").map
        (fun r => r.value)) = ["b"] ∧
    SettingsUnique (updateSettings storeC1 "U1" [("k", "a"), ("k", "b")] 7).1 :=
  update_settings_last_write_wins storeC1 "U1" userU1 [("k", "a"), ("k", "b")] "k" "b" 7
    (by intro x y; simp [rowsFor, storeC1]) (by decide) (by decide)

end SettingsService
